import Mathlib

/-!
Verification development for the snarf (package) browser of the web-cat-vscode
extension, a shallow embedding of src/snarfBrowser.ts.

The embedding models the two components of the file:
  * the Manifest Aggregator (class SnarfDataProvider: makeItem, fetchSite,
    fetchData), as pure functions over a fetch oracle, and
  * the Archive Installer (snarfItem and its inner downloadItem), as a
    function from an environment of oracle outcomes to a trace of observable
    events plus an optional escaping (unhandled) error.

JavaScript specifics that matter and how they are embedded:
  * a thrown JS error / rejected promise is an Except.error value;
  * the parsed XML field xml.snarf_site.package can be a single record, an
    array of records, or undefined (when the manifest has no package
    element); the ternary (Array.isArray(p) ? p : [p]) therefore yields
    [undefined] in the undefined case, represented as [none];
  * localeCompare is an oracle cmp : String -> String -> Int supplied as a
    parameter (its value depends on the host locale);
  * in snarfItem, the try/catch wraps only the synchronous call of
    window.withProgress; the promise produced by the task
    Promise.all([delay(1000), downloadItem()]) is never awaited, so a
    rejection of downloadItem is NOT caught by that catch block and escapes
    as an unhandled rejection. The embedding of snarfItem returns that
    escaping error in its second component.
-/

/-- One package record of a snarf site manifest (type SnarfSitePackageItem in
the source), with the attribute fields category, name, version, the
description element and the url attribute of the nested entry element. -/
structure SnarfSitePackageItem where
  category : String
  name : String
  version : String
  description : String
  entryUrl : String
  deriving DecidableEq, Repr

/-- The package field of a parsed manifest root: undefined (no package
element), a single record, or an array of records. -/
inductive PackageField where
  | missing : PackageField
  | single (p : SnarfSitePackageItem) : PackageField
  | list (ps : List SnarfSitePackageItem) : PackageField
  deriving DecidableEq, Repr

/-- The parsed manifest root xml.snarf_site: a name attribute and the
package field. -/
structure SnarfSite where
  name : String
  package : PackageField
  deriving DecidableEq, Repr

/-- Outcome of the HTTP GET of a manifest URL: the ok flag of the response
and the parsed body. Parsing is an external black box in the spec, so the
oracle hands back the already parsed document. -/
structure FetchResult where
  ok : Bool
  content : SnarfSite
  deriving DecidableEq, Repr

/-- A JS error value: a plain Error with a message, or a TypeError as raised
by a property access on undefined. -/
inductive JsError where
  | error (message : String) : JsError
  | typeError (message : String) : JsError
  deriving DecidableEq, Repr

/-- A tree item of the AsyncTree abstraction (class AsyncItem of
src/asyncTree.ts, constructed in the source with the fields label, tooltip,
description, iconId, item, contextValue, children). Fields the constructor
call omits are none. -/
inductive AsyncItem : Type where
  | mk : String → Option String → Option String → Option String →
      Option SnarfSitePackageItem → Option String → Option (List AsyncItem) → AsyncItem

/-- The label of an AsyncItem. -/
def AsyncItem.label : AsyncItem → String
  | .mk l _ _ _ _ _ _ => l

/-- The backing package record of an AsyncItem (none for site and category
nodes). -/
def AsyncItem.item : AsyncItem → Option SnarfSitePackageItem
  | .mk _ _ _ _ i _ _ => i

/-- The children of an AsyncItem (none for package leaves). -/
def AsyncItem.children : AsyncItem → Option (List AsyncItem)
  | .mk _ _ _ _ _ _ c => c

/-- Result of fetchSite: the site label and the normalized package list.
The list elements are Option values because the normalization of an
undefined package field produces [undefined]. -/
structure SiteData where
  label : String
  packages : List (Option SnarfSitePackageItem)
  deriving Repr

/-- makeItem of SnarfDataProvider. Its argument is an element of the
normalized package list, hence possibly undefined; reading x[@_name] on
undefined throws a TypeError. On a record it builds the package leaf
AsyncItem and pairs it with the category attribute of the record. -/
def makeItem : Option SnarfSitePackageItem → Except JsError (String × AsyncItem)
  | none => .error (.typeError "Cannot read properties of undefined (reading @_name)")
  | some x => .ok (x.category,
      AsyncItem.mk x.name (some x.description) (some x.version) (some "package")
        (some x) (some "project") none)

/-- The normalization Array.isArray(p) ? p : [p] applied to the package
field of the parsed manifest: an array stays as is, a single record becomes
a one element list, and undefined becomes [undefined]. -/
def normalizePackages : PackageField → List (Option SnarfSitePackageItem)
  | .missing => [none]
  | .single p => [some p]
  | .list ps => ps.map some

/-- The error message fetchSite throws on a non-ok response status. -/
def failMsg (url : String) : String :=
  "Failed to snarf " ++ url ++ ". Check the URL and your internet connection."

/-- fetchSite of SnarfDataProvider: GET the url through the fetch oracle;
a non-ok response throws the descriptive error; otherwise parse the body
and return the site name attribute with the normalized package list. -/
def fetchSite (fetch : String → FetchResult) (url : String) : Except JsError SiteData :=
  let resp := fetch url
  if resp.ok then
    let xml := resp.content
    .ok { label := xml.name, packages := normalizePackages xml.package }
  else
    .error (.error (failMsg url))

/-- Sequencing of a list of fallible computations, the embedding of both
Promise.all over mapped promises and of Array.map over a function that can
throw: the first error (leftmost) aborts the whole computation. -/
def mapExcept (f : α → Except JsError β) : List α → Except JsError (List β)
  | [] => .ok []
  | x :: xs =>
    match f x with
    | .error e => .error e
    | .ok y =>
      match mapExcept f xs with
      | .error e => .error e
      | .ok ys => .ok (y :: ys)

/-- Promise.all(snarfURLs.map(this.fetchSite)): every URL is fetched (all
requests are issued when the combinator starts, hence the first component
logs every URL), and the joined result fails if any single fetch fails. -/
def fetchAll (fetch : String → FetchResult) :
    List String → List String × Except JsError (List SiteData)
  | [] => ([], .ok [])
  | u :: us =>
    let rest := fetchAll fetch us
    (u :: rest.1,
      match fetchSite fetch u, rest.2 with
      | .error e, _ => .error e
      | .ok _, .error e => .error e
      | .ok s, .ok ss => .ok (s :: ss))

/-- One step of the reduce that groups package items by category: the
accumulator is the insertion ordered object, modelled as an association
list; a known category key appends the item to its bucket, a new category
key is appended at the end. -/
def insertGroup (acc : List (String × List AsyncItem)) (cat : String) (it : AsyncItem) :
    List (String × List AsyncItem) :=
  if acc.any (fun p => p.1 = cat) then
    acc.map (fun p => if p.1 = cat then (p.1, p.2 ++ [it]) else p)
  else
    acc ++ [(cat, [it])]

/-- The comparator based insertion of the sort: place x before the first
element y with cmp x.label y.label <= 0. -/
def insertSorted (cmp : String → String → Int) (x : AsyncItem) :
    List AsyncItem → List AsyncItem
  | [] => [x]
  | y :: ys =>
    if cmp x.label y.label ≤ 0 then x :: y :: ys
    else y :: insertSorted cmp x ys

/-- children.sort((a, b) => a.label.localeCompare(b.label)): a sort of the
bucket by the comparator on labels (insertion sort; the JS engine sort is
any comparator respecting sort). -/
def sortItems (cmp : String → String → Int) (l : List AsyncItem) : List AsyncItem :=
  l.foldr (insertSorted cmp) []

/-- The body of sites.map in fetchData for one site: map the normalized
package list through makeItem (faulting on an undefined element), reduce
the pairs into the category buckets, build one folder node per category
with the sorted bucket as children, and wrap everything in the site node. -/
def buildSiteNode (cmp : String → String → Int) (site : SiteData) :
    Except JsError AsyncItem :=
  match mapExcept makeItem site.packages with
  | .error e => .error e
  | .ok pairs =>
    let items := pairs.foldl (fun acc q => insertGroup acc q.1 q.2) []
    let children := items.map (fun g =>
      AsyncItem.mk g.1 none none (some "folder") none none (some (sortItems cmp g.2)))
    .ok (AsyncItem.mk site.label none none (some "project") none none (some children))

/-- fetchData of SnarfDataProvider. The configuration value snarfURLs is
undefined (none) or a list; the guard if (!snarfURLs) return short circuits
only the undefined case, because an empty array is truthy in JS. The first
component of the result is the list of URLs for which a network request is
issued; the second is the outcome: none for the undefined short circuit,
some nodes on success, or the propagated error. -/
def fetchData (cfg : Option (List String)) (fetch : String → FetchResult)
    (cmp : String → String → Int) :
    List String × Except JsError (Option (List AsyncItem)) :=
  match cfg with
  | none => ([], .ok none)
  | some snarfURLs =>
    let r := fetchAll fetch snarfURLs
    (r.1,
      match r.2 with
      | .error e => .error e
      | .ok sites =>
        match mapExcept (buildSiteNode cmp) sites with
        | .error e => .error e
        | .ok nodes => .ok (some nodes))

/-- An observable side effect of the installer: the progress scope opening,
an outgoing HTTP request, the Yes/No overwrite prompt, an informational
message, or a write of the extracted archive under a destination path. -/
inductive Event where
  | progressStart : Event
  | fetchReq (url : String) : Event
  | promptMsg (message : String) : Event
  | infoMsg (message : String) : Event
  | fsWrite (path : String) : Event
  deriving DecidableEq, Repr

/-- Whether the event is an informational message. -/
def Event.isInfoMsg : Event → Bool
  | .infoMsg _ => true
  | _ => false

/-- Whether the event is an outgoing network request. -/
def Event.isFetchReq : Event → Bool
  | .fetchReq _ => true
  | _ => false

/-- Whether the event is the overwrite prompt. -/
def Event.isPrompt : Event → Bool
  | .promptMsg _ => true
  | _ => false

/-- Whether the event is a filesystem write. -/
def Event.isFsWrite : Event → Bool
  | .fsWrite _ => true
  | _ => false

/-- The environment of one snarfItem invocation: the workspace folder list
(none when no workspace is open; elements are the fsPath values of the
folders), the outcomes of the awaited installer steps (the archive GET, the
buffering of its body, the archive open, the extraction) and the existence
of the destination directory together with the answer the user gives to the
overwrite prompt (none when the prompt is dismissed). -/
structure InstallEnv where
  workspaceFolders : Option (List String)
  fetchResult : Except JsError Unit
  bufferResult : Except JsError Unit
  openResult : Except JsError Unit
  destExists : Bool
  answer : Option String
  extractResult : Except JsError Unit
  deriving Repr

/-- The tail of downloadItem after the overwrite guard: await
zip.extract({ path: unzipPath, concurrency: 5 }) and then show the success
message. A failing extraction rejects the downloadItem promise. -/
def extractStep (pack : SnarfSitePackageItem) (unzipPath : String) (env : InstallEnv)
    (ev : List Event) : List Event × Except JsError Unit :=
  match env.extractResult with
  | .error e => (ev, .error e)
  | .ok _ =>
    (ev ++ [Event.fsWrite unzipPath,
            Event.infoMsg ("Succesfully snarfed " ++ pack.name ++ ".")], .ok ())

/-- The inner async downloadItem of snarfItem: GET the entry url of the
package, buffer the body, open the buffer as a zip, then - only now - check
whether dir/name exists; if it does, prompt, and any answer other than Yes
returns silently; finally extract into the destination and report success.
The result is the event trace plus the settlement of the promise. -/
def downloadItem (pack : SnarfSitePackageItem) (dir : String) (env : InstallEnv) :
    List Event × Except JsError Unit :=
  let ev := [Event.fetchReq pack.entryUrl]
  match env.fetchResult with
  | .error e => (ev, .error e)
  | .ok _ =>
    match env.bufferResult with
    | .error e => (ev, .error e)
    | .ok _ =>
      match env.openResult with
      | .error e => (ev, .error e)
      | .ok _ =>
        let unzipPath := dir ++ "/" ++ pack.name
        if env.destExists then
          let ev := ev ++ [Event.promptMsg "Directory already exists. Overwrite?"]
          if env.answer = some "Yes" then extractStep pack unzipPath env ev
          else (ev, .ok ())
        else
          extractStep pack unzipPath env ev

/-- snarfItem, the exported install entry point. With no workspace open it
shows the informational message and returns. With an open workspace it runs
window.withProgress over Promise.all([delay(1000), downloadItem()]).
The try/catch around window.withProgress is synchronous and the returned
promise is never awaited, so a rejection of downloadItem is not caught
there: no message is shown for it and it escapes as an unhandled rejection,
returned here as the second component. (With a workspace whose folder list
is empty, the optional chain workspaceFolders?.[0].uri.fsPath reads .uri of
undefined and throws a TypeError out of snarfItem itself.) -/
def snarfItem (pack : SnarfSitePackageItem) (env : InstallEnv) :
    List Event × Option JsError :=
  match env.workspaceFolders with
  | none => ([Event.infoMsg "Please open a folder first."], none)
  | some [] => ([], some (.typeError "Cannot read properties of undefined (reading uri)"))
  | some (dir :: _) =>
    let r := downloadItem pack dir env
    (Event.progressStart :: r.1,
      match r.2 with
      | .error e => some e
      | .ok _ => none)

/-! Helper lemmas about the sequencing combinator mapExcept. -/

theorem mapExcept_ok_length {f : α → Except JsError β} {l : List α} {ys : List β}
    (h : mapExcept f l = .ok ys) : ys.length = l.length := by
  induction l generalizing ys with
  | nil => simp [mapExcept] at h; simp [← h]
  | cons x xs ih =>
    simp only [mapExcept] at h
    cases hx : f x with
    | error e => rw [hx] at h; cases h
    | ok y =>
      rw [hx] at h
      cases hxs : mapExcept f xs with
      | error e => rw [hxs] at h; cases h
      | ok ys0 =>
        rw [hxs] at h
        cases h
        simp [ih hxs]

theorem mapExcept_ok_get? {f : α → Except JsError β} {l : List α} {ys : List β}
    (h : mapExcept f l = .ok ys) :
    ∀ i x y, l.get? i = some x → ys.get? i = some y → f x = .ok y := by
  induction l generalizing ys with
  | nil => intro i x y hx; simp at hx
  | cons a as ih =>
    simp only [mapExcept] at h
    cases ha : f a with
    | error e => rw [ha] at h; cases h
    | ok b =>
      rw [ha] at h
      cases has : mapExcept f as with
      | error e => rw [has] at h; cases h
      | ok bs =>
        rw [has] at h
        cases h
        intro i x y hx hy
        cases i with
        | zero =>
          simp only [List.get?_cons_zero, Option.some.injEq] at hx hy
          rw [← hx, ← hy]
          exact ha
        | succ j =>
          simp only [List.get?_cons_succ] at hx hy
          exact ih has j x y hx hy

theorem mapExcept_ok_mem {f : α → Except JsError β} {l : List α} {ys : List β}
    (h : mapExcept f l = .ok ys) : ∀ y ∈ ys, ∃ x ∈ l, f x = .ok y := by
  induction l generalizing ys with
  | nil =>
    simp only [mapExcept] at h
    cases h
    intro y hy
    simp at hy
  | cons a as ih =>
    simp only [mapExcept] at h
    cases ha : f a with
    | error e => rw [ha] at h; cases h
    | ok b =>
      rw [ha] at h
      cases has : mapExcept f as with
      | error e => rw [has] at h; cases h
      | ok bs =>
        rw [has] at h
        cases h
        intro y hy
        rcases List.mem_cons.mp hy with rfl | hy0
        · exact ⟨a, List.mem_cons_self a as, ha⟩
        · rcases ih has y hy0 with ⟨x, hxmem, hfx⟩
          exact ⟨x, List.mem_cons.mpr (Or.inr hxmem), hfx⟩

theorem mapExcept_ok_forward {f : α → Except JsError β} {l : List α} {ys : List β}
    (h : mapExcept f l = .ok ys) : ∀ x ∈ l, ∃ y ∈ ys, f x = .ok y := by
  induction l generalizing ys with
  | nil => intro x hx; simp at hx
  | cons a as ih =>
    simp only [mapExcept] at h
    cases ha : f a with
    | error e => rw [ha] at h; cases h
    | ok b =>
      rw [ha] at h
      cases has : mapExcept f as with
      | error e => rw [has] at h; cases h
      | ok bs =>
        rw [has] at h
        cases h
        intro x hx
        rcases List.mem_cons.mp hx with rfl | hx0
        · exact ⟨b, List.mem_cons_self b bs, ha⟩
        · rcases ih has x hx0 with ⟨y, hymem, hfy⟩
          exact ⟨y, List.mem_cons.mpr (Or.inr hymem), hfy⟩

theorem mapExcept_error_mem {f : α → Except JsError β} {l : List α} {e : JsError}
    (h : mapExcept f l = .error e) : ∃ x ∈ l, f x = .error e := by
  induction l with
  | nil => simp [mapExcept] at h
  | cons a as ih =>
    simp only [mapExcept] at h
    cases ha : f a with
    | error e0 =>
      rw [ha] at h
      cases h
      exact ⟨a, List.mem_cons_self a as, ha⟩
    | ok b =>
      rw [ha] at h
      cases has : mapExcept f as with
      | error e0 =>
        rw [has] at h
        cases h
        rcases ih has with ⟨x, hxmem, hfx⟩
        exact ⟨x, List.mem_cons.mpr (Or.inr hxmem), hfx⟩
      | ok bs => rw [has] at h; cases h

theorem mapExcept_exists_error {f : α → Except JsError β} {l : List α} {x : α}
    (hx : x ∈ l) {e : JsError} (hfx : f x = .error e) :
    ∃ e0, mapExcept f l = .error e0 := by
  induction l with
  | nil => simp at hx
  | cons a as ih =>
    rcases List.mem_cons.mp hx with rfl | hx0
    · simp only [mapExcept, hfx]
      exact ⟨e, rfl⟩
    · simp only [mapExcept]
      cases ha : f a with
      | error e0 => exact ⟨e0, rfl⟩
      | ok b =>
        rcases ih hx0 with ⟨e0, he0⟩
        rw [he0]
        exact ⟨e0, rfl⟩

theorem mapExcept_all_ok {f : α → Except JsError β} {l : List α}
    (h : ∀ x ∈ l, ∃ y, f x = .ok y) : ∃ ys, mapExcept f l = .ok ys := by
  induction l with
  | nil => exact ⟨[], rfl⟩
  | cons a as ih =>
    rcases h a (List.mem_cons_self a as) with ⟨b, hb⟩
    rcases ih (fun x hx => h x (List.mem_cons.mpr (Or.inr hx))) with ⟨bs, hbs⟩
    refine ⟨b :: bs, ?_⟩
    simp only [mapExcept, hb, hbs]

/-! Helper lemmas about fetchAll, fetchSite and fetchData. -/

theorem fetchAll_fst (fetch : String → FetchResult) (urls : List String) :
    (fetchAll fetch urls).1 = urls := by
  induction urls with
  | nil => rfl
  | cons u us ih => simp only [fetchAll, ih]

theorem fetchAll_snd (fetch : String → FetchResult) (urls : List String) :
    (fetchAll fetch urls).2 = mapExcept (fetchSite fetch) urls := by
  induction urls with
  | nil => rfl
  | cons u us ih =>
    simp only [fetchAll, mapExcept, ih]
    cases fetchSite fetch u with
    | error e => rfl
    | ok s =>
      cases mapExcept (fetchSite fetch) us with
      | error e => rfl
      | ok ss => rfl

theorem fetchSite_of_ok {fetch : String → FetchResult} {url : String}
    (h : (fetch url).ok = true) :
    fetchSite fetch url =
      .ok { label := (fetch url).content.name,
            packages := normalizePackages (fetch url).content.package } := by
  simp [fetchSite, h]

theorem fetchSite_of_not_ok {fetch : String → FetchResult} {url : String}
    (h : (fetch url).ok = false) :
    fetchSite fetch url = .error (.error (failMsg url)) := by
  simp [fetchSite, h]

theorem fetchSite_error {fetch : String → FetchResult} {url : String} {e : JsError}
    (h : fetchSite fetch url = .error e) :
    (fetch url).ok = false ∧ e = .error (failMsg url) := by
  by_cases hok : (fetch url).ok = true
  · rw [fetchSite_of_ok hok] at h; cases h
  · have hok0 : (fetch url).ok = false := by
      cases hf : (fetch url).ok
      · rfl
      · exact absurd hf hok
    rw [fetchSite_of_not_ok hok0] at h
    cases h
    exact ⟨hok0, rfl⟩

theorem fetchData_ok_inv {urls : List String} {fetch : String → FetchResult}
    {cmp : String → String → Int} {nodes : List AsyncItem}
    (h : (fetchData (some urls) fetch cmp).2 = .ok (some nodes)) :
    ∃ sites, mapExcept (fetchSite fetch) urls = .ok sites ∧
      mapExcept (buildSiteNode cmp) sites = .ok nodes := by
  cases hs : mapExcept (fetchSite fetch) urls with
  | error e => simp [fetchData, fetchAll_snd, hs] at h
  | ok sites =>
    cases hn : mapExcept (buildSiteNode cmp) sites with
    | error e => simp [fetchData, fetchAll_snd, hs, hn] at h
    | ok nodes0 =>
      have hn2 : nodes0 = nodes := by
        simp [fetchData, fetchAll_snd, hs, hn] at h
        exact h
      subst hn2
      exact ⟨sites, rfl, hn⟩

/-! Helper lemmas about the comparator sort and the category grouping. -/

/-- The ordering the comparator induces on items: cmp of the labels is
nonpositive (the ascending order of the sort). -/
def leLabel (cmp : String → String → Int) (a b : AsyncItem) : Prop :=
  cmp a.label b.label ≤ 0

theorem mem_insertSorted {cmp : String → String → Int} {x z : AsyncItem} {l : List AsyncItem}
    (h : z ∈ insertSorted cmp x l) : z = x ∨ z ∈ l := by
  induction l with
  | nil =>
    simp only [insertSorted, List.mem_singleton] at h
    exact Or.inl h
  | cons y ys ih =>
    simp only [insertSorted] at h
    split at h
    · rcases List.mem_cons.mp h with rfl | h0
      · exact Or.inl rfl
      · exact Or.inr h0
    · rcases List.mem_cons.mp h with rfl | h0
      · exact Or.inr (List.mem_cons_self z ys)
      · rcases ih h0 with h1 | h1
        · exact Or.inl h1
        · exact Or.inr (List.mem_cons.mpr (Or.inr h1))

theorem pairwise_insertSorted {cmp : String → String → Int}
    (htot : ∀ s t : String, cmp s t ≤ 0 ∨ cmp t s ≤ 0)
    (htrans : ∀ s t u : String, cmp s t ≤ 0 → cmp t u ≤ 0 → cmp s u ≤ 0)
    (x : AsyncItem) {l : List AsyncItem} (hl : List.Pairwise (leLabel cmp) l) :
    List.Pairwise (leLabel cmp) (insertSorted cmp x l) := by
  induction l with
  | nil => simp [insertSorted]
  | cons y ys ih =>
    rcases List.pairwise_cons.mp hl with ⟨hy, hys⟩
    simp only [insertSorted]
    split
    · rename_i hxy
      refine List.pairwise_cons.mpr ⟨?_, hl⟩
      intro z hz
      rcases List.mem_cons.mp hz with rfl | hz0
      · exact hxy
      · exact htrans _ _ _ hxy (hy z hz0)
    · rename_i hxy
      have hyx : cmp y.label x.label ≤ 0 := by
        rcases htot x.label y.label with h0 | h0
        · exact absurd h0 hxy
        · exact h0
      refine List.pairwise_cons.mpr ⟨?_, ih hys⟩
      intro z hz
      rcases mem_insertSorted hz with rfl | hz0
      · exact hyx
      · exact hy z hz0

theorem pairwise_sortItems {cmp : String → String → Int}
    (htot : ∀ s t : String, cmp s t ≤ 0 ∨ cmp t s ≤ 0)
    (htrans : ∀ s t u : String, cmp s t ≤ 0 → cmp t u ≤ 0 → cmp s u ≤ 0)
    (l : List AsyncItem) : List.Pairwise (leLabel cmp) (sortItems cmp l) := by
  induction l with
  | nil => simp [sortItems]
  | cons x xs ih => exact pairwise_insertSorted htot htrans x ih

theorem mem_sortItems {cmp : String → String → Int} {z : AsyncItem} {l : List AsyncItem}
    (h : z ∈ sortItems cmp l) : z ∈ l := by
  induction l with
  | nil => simp [sortItems] at h
  | cons x xs ih =>
    rcases mem_insertSorted (l := sortItems cmp xs) h with rfl | h0
    · exact List.mem_cons_self z xs
    · exact List.mem_cons.mpr (Or.inr (ih h0))

/-- The pair produced for a category bucket is good when the item is a
package leaf whose record has exactly that category. -/
def goodPair (cat : String) (it : AsyncItem) : Prop :=
  ∃ r, it.item = some r ∧ r.category = cat

/-- Invariant of the grouping accumulator: every item of every bucket is a
package leaf of that bucket category. -/
def BucketInv (acc : List (String × List AsyncItem)) : Prop :=
  ∀ g ∈ acc, ∀ it ∈ g.2, goodPair g.1 it

theorem insertGroup_inv {acc : List (String × List AsyncItem)} {cat : String} {it : AsyncItem}
    (hacc : BucketInv acc) (hit : goodPair cat it) :
    BucketInv (insertGroup acc cat it) := by
  unfold insertGroup
  split
  · intro g hg it0 hit0
    rcases List.mem_map.mp hg with ⟨g0, hg0, hmap⟩
    by_cases hc : g0.1 = cat
    · rw [if_pos hc] at hmap
      rw [← hmap] at hit0 ⊢
      simp only at hit0 ⊢
      rcases List.mem_append.mp hit0 with h0 | h0
      · exact hacc g0 hg0 it0 h0
      · rw [List.mem_singleton.mp h0, hc]
        exact hit
    · rw [if_neg hc] at hmap
      rw [← hmap] at hit0 ⊢
      exact hacc g0 hg0 it0 hit0
  · intro g hg it0 hit0
    rcases List.mem_append.mp hg with h0 | h0
    · exact hacc g h0 it0 hit0
    · rw [List.mem_singleton.mp h0] at hit0
      simp only [List.mem_singleton] at hit0
      rw [List.mem_singleton.mp h0, hit0]
      exact hit

theorem foldl_insertGroup_inv {pairs : List (String × AsyncItem)}
    (hp : ∀ q ∈ pairs, goodPair q.1 q.2) {acc : List (String × List AsyncItem)}
    (hacc : BucketInv acc) :
    BucketInv (pairs.foldl (fun a q => insertGroup a q.1 q.2) acc) := by
  induction pairs generalizing acc with
  | nil => exact hacc
  | cons q qs ih =>
    simp only [List.foldl_cons]
    exact ih (fun q0 hq0 => hp q0 (List.mem_cons.mpr (Or.inr hq0)))
      (insertGroup_inv hacc (hp q (List.mem_cons_self q qs)))

theorem makeItem_good {x : Option SnarfSitePackageItem} {q : String × AsyncItem}
    (h : makeItem x = .ok q) : goodPair q.1 q.2 := by
  cases x with
  | none => cases h
  | some r =>
    simp only [makeItem, Except.ok.injEq] at h
    rw [← h]
    exact ⟨r, rfl, rfl⟩

theorem buildSiteNode_ok_inv {cmp : String → String → Int} {site : SiteData} {n : AsyncItem}
    (h : buildSiteNode cmp site = .ok n) :
    ∃ pairs, mapExcept makeItem site.packages = .ok pairs ∧
      n = AsyncItem.mk site.label none none (some "project") none none
        (some ((pairs.foldl (fun acc q => insertGroup acc q.1 q.2) []).map (fun g =>
          AsyncItem.mk g.1 none none (some "folder") none none
            (some (sortItems cmp g.2))))) := by
  unfold buildSiteNode at h
  cases hp : mapExcept makeItem site.packages with
  | error e => rw [hp] at h; cases h
  | ok pairs =>
    rw [hp] at h
    cases h
    exact ⟨pairs, rfl, rfl⟩

theorem buildSiteNode_label {cmp : String → String → Int} {site : SiteData} {n : AsyncItem}
    (h : buildSiteNode cmp site = .ok n) : n.label = site.label := by
  rcases buildSiteNode_ok_inv h with ⟨pairs, _, rfl⟩
  rfl

/-! The claim theorems about the Manifest Aggregator. -/

/-- Claim C3: for every configured URL list, a load in which every site
fetch and parse succeeds returns exactly as many site nodes as URLs, and
the i-th site node is the one built from the site fetched at the i-th
configured URL (in particular its label is that site manifest name). -/
theorem claim_C3_sites_in_configured_order
    {urls : List String} {fetch : String → FetchResult} {cmp : String → String → Int}
    {nodes : List AsyncItem}
    (h : (fetchData (some urls) fetch cmp).2 = .ok (some nodes)) :
    nodes.length = urls.length ∧
    ∀ i u n, urls.get? i = some u → nodes.get? i = some n →
      ∃ site, fetchSite fetch u = .ok site ∧ buildSiteNode cmp site = .ok n ∧
        n.label = site.label := by
  rcases fetchData_ok_inv h with ⟨sites, hs, hn⟩
  have hlen1 := mapExcept_ok_length hs
  have hlen2 := mapExcept_ok_length hn
  refine ⟨hlen2.trans hlen1, ?_⟩
  intro i u n hu hnmem
  have hi : i < sites.length := by
    rw [hlen1]
    exact List.get?_eq_some.mp hu |>.1
  rcases List.get?_eq_some.mpr ⟨hi, rfl⟩ with hsite
  have hsitei : sites.get? i = some (sites.get ⟨i, hi⟩) := hsite
  refine ⟨sites.get ⟨i, hi⟩, ?_, ?_, ?_⟩
  · exact mapExcept_ok_get? hs i u _ hu hsitei
  · exact mapExcept_ok_get? hn i _ n hsitei hnmem
  · exact buildSiteNode_label (mapExcept_ok_get? hn i _ n hsitei hnmem)

/-- Claim C4: with at least two configured URLs, if some site fetch has a
non-success HTTP status then the whole load fails - no site nodes at all -
and the error is the descriptive message naming an offending URL and
telling the user to check the URL and their internet connection. -/
theorem claim_C4_one_bad_fetch_fails_all
    {urls : List String} {fetch : String → FetchResult} {cmp : String → String → Int}
    (_hn : 2 ≤ urls.length)
    (hbad : ∃ u ∈ urls, (fetch u).ok = false) :
    ∃ u ∈ urls, (fetch u).ok = false ∧
      (fetchData (some urls) fetch cmp).2 = .error (.error (failMsg u)) := by
  rcases hbad with ⟨u0, hu0, hko⟩
  rcases mapExcept_exists_error hu0 (fetchSite_of_not_ok hko) with ⟨e, he⟩
  rcases mapExcept_error_mem he with ⟨u1, hu1, hfu1⟩
  rcases fetchSite_error hfu1 with ⟨hko1, rfl⟩
  exact ⟨u1, hu1, hko1, by simp [fetchData, fetchAll_snd, he]⟩

/-- Claim C5: a manifest whose root carries a single package record and an
otherwise equal manifest carrying a one element package list load to the
same result: the single record is normalized into a one element list right
after parsing, so the whole fetchData outcomes coincide. -/
theorem claim_C5_single_package_normalization
    {f g : String → FetchResult} {url name : String} {p : SnarfSitePackageItem}
    (cmp : String → String → Int)
    (hf : f url = ⟨true, ⟨name, .single p⟩⟩)
    (hg : g url = ⟨true, ⟨name, .list [p]⟩⟩) :
    fetchData (some [url]) f cmp = fetchData (some [url]) g cmp := by
  have hsite : fetchSite f url = fetchSite g url := by
    rw [fetchSite_of_ok (by rw [hf]), fetchSite_of_ok (by rw [hg]), hf, hg]
    rfl
  simp [fetchData, fetchAll, mapExcept, hsite]

/-- Claim C9: when the configured snarfURLs value is undefined or the empty
list, the load issues no network request and ends without an error and
without any site node: undefined short circuits to no result, and the empty
list runs through an empty fetch join to an empty site list. -/
theorem claim_C9_absent_or_empty_config
    {cfg : Option (List String)} (fetch : String → FetchResult)
    (cmp : String → String → Int)
    (h : cfg = none ∨ cfg = some []) :
    (fetchData cfg fetch cmp).1 = [] ∧
      ((fetchData cfg fetch cmp).2 = .ok none ∨
        (fetchData cfg fetch cmp).2 = .ok (some [])) := by
  rcases h with rfl | rfl
  · exact ⟨rfl, Or.inl rfl⟩
  · exact ⟨rfl, Or.inr rfl⟩

/-- Claim C10: a manifest that fetches and parses successfully but has no
package element does not load into a site node with an empty package list:
the normalization turns the undefined package field into the one element
list [undefined], makeItem faults on that element with a TypeError, and the
whole load fails (provided the other configured sites respond ok, so that
the failure is not masked by a fetch error). -/
theorem claim_C10_missing_package_faults_load
    {urls : List String} {fetch : String → FetchResult} {cmp : String → String → Int}
    {url name : String}
    (hmem : url ∈ urls)
    (hok : ∀ u ∈ urls, (fetch u).ok = true)
    (hurl : fetch url = ⟨true, ⟨name, .missing⟩⟩) :
    normalizePackages .missing = [none] ∧
    makeItem none = .error (.typeError "Cannot read properties of undefined (reading @_name)") ∧
    ∃ e, (fetchData (some urls) fetch cmp).2 = .error e := by
  refine ⟨rfl, rfl, ?_⟩
  rcases mapExcept_all_ok (l := urls) (f := fetchSite fetch)
      (fun u hu => ⟨_, fetchSite_of_ok (hok u hu)⟩) with ⟨sites, hsites⟩
  have hsiteurl : fetchSite fetch url = .ok ⟨name, [none]⟩ := by
    rw [fetchSite_of_ok (by rw [hurl]), hurl]
    rfl
  rcases mapExcept_ok_forward hsites url hmem with ⟨site, hsitemem, hfetch⟩
  have hsite : site = ⟨name, [none]⟩ := by
    rw [hsiteurl] at hfetch
    cases hfetch
    rfl
  have hbuild : buildSiteNode cmp site =
      .error (.typeError "Cannot read properties of undefined (reading @_name)") := by
    rw [hsite]
    rfl
  rcases mapExcept_exists_error hsitemem hbuild with ⟨e, he⟩
  exact ⟨e, by simp [fetchData, fetchAll_snd, hsites, he]⟩

/-- Claim C6: in every successfully loaded tree, each package node under a
category node carries a record whose category string equals the category
node label, and the package nodes of each category are sorted ascending by
label under the locale comparator (assumed total and transitive, as a
locale collation is). -/
theorem claim_C6_grouping_and_sorting
    {urls : List String} {fetch : String → FetchResult} {cmp : String → String → Int}
    {nodes : List AsyncItem}
    (htot : ∀ s t : String, cmp s t ≤ 0 ∨ cmp t s ≤ 0)
    (htrans : ∀ s t u : String, cmp s t ≤ 0 → cmp t u ≤ 0 → cmp s u ≤ 0)
    (h : (fetchData (some urls) fetch cmp).2 = .ok (some nodes)) :
    ∀ s ∈ nodes, ∀ cs, s.children = some cs → ∀ c ∈ cs, ∀ ps, c.children = some ps →
      (∀ p ∈ ps, ∃ r, p.item = some r ∧ r.category = c.label) ∧
      List.Pairwise (leLabel cmp) ps := by
  rcases fetchData_ok_inv h with ⟨sites, hs, hn⟩
  intro s hsmem cs hcs c hcmem ps hps
  rcases mapExcept_ok_mem hn s hsmem with ⟨site, hsitemem, hbuild⟩
  rcases buildSiteNode_ok_inv hbuild with ⟨pairs, hpairs, rfl⟩
  simp only [AsyncItem.children, Option.some.injEq] at hcs
  rw [← hcs] at hcmem
  rcases List.mem_map.mp hcmem with ⟨g, hg, rfl⟩
  simp only [AsyncItem.children, Option.some.injEq] at hps
  rw [← hps]
  have hinv : BucketInv (pairs.foldl (fun a q => insertGroup a q.1 q.2) []) := by
    refine foldl_insertGroup_inv ?_ ?_
    · intro q hq
      rcases mapExcept_ok_mem hpairs q hq with ⟨x, _, hx⟩
      exact makeItem_good hx
    · intro g0 hg0
      simp at hg0
  constructor
  · intro p hp
    have hpg : p ∈ g.2 := mem_sortItems hp
    exact hinv g hg p hpg
  · exact pairwise_sortItems htot htrans g.2

/-! The claim theorems about the Archive Installer. -/

/-- Claim C1 evidence (code bug): with a workspace open and a failing
download, the install invocation shows no message at all (no informational
message, no prompt) and the downloadItem rejection escapes unhandled: the
try/catch of snarfItem never observes it because the promise returned by
window.withProgress is not awaited. The claim (and the spec) say the error
is caught and surfaced as exactly one notification; the code does not do
that. -/
theorem claim_C1_install_error_escapes_uncaught :
    (snarfItem ⟨"Labs", "proj", "1.0", "d", "http://x/proj.zip"⟩
      ⟨some ["/ws"], .error (.error "network down"), .ok (), .ok (), false, none, .ok ()⟩).1.all
        (fun e => !(e.isInfoMsg || e.isPrompt)) = true ∧
    (snarfItem ⟨"Labs", "proj", "1.0", "d", "http://x/proj.zip"⟩
      ⟨some ["/ws"], .error (.error "network down"), .ok (), .ok (), false, none, .ok ()⟩).2 =
      some (.error "network down") :=
  ⟨rfl, rfl⟩

/-- Concrete install environment with an existing destination: workspace
open at /ws, all download steps succeed, the destination exists and the
user answers No to the overwrite prompt. -/
def envPromptW : InstallEnv :=
  ⟨some ["/ws"], .ok (), .ok (), .ok (), true, some "No", .ok ()⟩

/-- Concrete package record used by the installer examples. -/
def packW : SnarfSitePackageItem := ⟨"Labs", "proj", "1.0", "d", "http://x/proj.zip"⟩

/-- Claim C2 counterexample: the destination exists and the answer to the
prompt is No (not affirmative), yet the network request of the download is
in the trace, at an index strictly before the prompt: the download is
started (and finished) before the prompt is answered, refuting the claimed
order prompt-then-download. -/
theorem claim_C2_counterexample :
    envPromptW.destExists = true ∧ envPromptW.answer ≠ some "Yes" ∧
    (snarfItem packW envPromptW).1.any Event.isFetchReq = true ∧
    (snarfItem packW envPromptW).1.findIdx Event.isFetchReq <
      (snarfItem packW envPromptW).1.findIdx Event.isPrompt :=
  ⟨rfl, by decide, rfl, by decide⟩

/-- Claim C2 (amended): when the destination path already exists and the
download steps succeed, the download network request precedes the overwrite
prompt in the trace (the archive is fetched and opened first), and only the
extraction step is gated on the affirmative answer: a non-affirmative
answer means no filesystem write happens. -/
theorem claim_C2_amended_download_precedes_prompt
    {pack : SnarfSitePackageItem} {env : InstallEnv} {dir : String} {rest : List String}
    (hw : env.workspaceFolders = some (dir :: rest))
    (hf : env.fetchResult = .ok ()) (hb : env.bufferResult = .ok ())
    (ho : env.openResult = .ok ()) (hd : env.destExists = true) :
    Event.promptMsg "Directory already exists. Overwrite?" ∈ (snarfItem pack env).1 ∧
    (snarfItem pack env).1.findIdx Event.isFetchReq <
      (snarfItem pack env).1.findIdx Event.isPrompt ∧
    (env.answer ≠ some "Yes" →
      (snarfItem pack env).1.all (fun e => !e.isFsWrite) = true) := by
  by_cases hans : env.answer = some "Yes"
  · cases hex : env.extractResult with
    | error e =>
      refine ⟨?_, ?_, fun hne => absurd hans hne⟩ <;>
        simp [snarfItem, downloadItem, extractStep, hw, hf, hb, ho, hd, hans, hex,
          List.findIdx_cons, Event.isFetchReq, Event.isPrompt]
    | ok u =>
      refine ⟨?_, ?_, fun hne => absurd hans hne⟩ <;>
        simp [snarfItem, downloadItem, extractStep, hw, hf, hb, ho, hd, hans, hex,
          List.findIdx_cons, Event.isFetchReq, Event.isPrompt]
  · refine ⟨?_, ?_, fun _ => ?_⟩ <;>
      simp [snarfItem, downloadItem, extractStep, hw, hf, hb, ho, hd, hans,
        List.findIdx_cons, Event.isFetchReq, Event.isPrompt, Event.isFsWrite]

/-- Claim C7: destination exists, download steps succeed, and the answer is
not the explicit affirmative Yes: then the trace holds no filesystem write
and no informational message (neither success nor error - the only message
like event is the prompt itself), and no error escapes: a silent abort. -/
theorem claim_C7_nonaffirmative_silent_abort
    {pack : SnarfSitePackageItem} {env : InstallEnv} {dir : String} {rest : List String}
    (hw : env.workspaceFolders = some (dir :: rest))
    (hf : env.fetchResult = .ok ()) (hb : env.bufferResult = .ok ())
    (ho : env.openResult = .ok ()) (hd : env.destExists = true)
    (ha : env.answer ≠ some "Yes") :
    (snarfItem pack env).1.all (fun e => !(e.isFsWrite || e.isInfoMsg)) = true ∧
    (snarfItem pack env).2 = none := by
  constructor <;>
    simp [snarfItem, downloadItem, hw, hf, hb, ho, hd, ha,
      Event.isFsWrite, Event.isInfoMsg]

/-- Claim C8: with no workspace open, snarfItem shows exactly one
informational message (the guidance to open a folder first), issues no
network request, writes nothing, and raises no error. -/
theorem claim_C8_no_workspace_guided_noop
    (pack : SnarfSitePackageItem) {env : InstallEnv}
    (hw : env.workspaceFolders = none) :
    (snarfItem pack env).1 = [Event.infoMsg "Please open a folder first."] ∧
    (snarfItem pack env).1.countP Event.isInfoMsg = 1 ∧
    (snarfItem pack env).1.all (fun e => !(e.isFetchReq || e.isFsWrite)) = true ∧
    (snarfItem pack env).2 = none := by
  have h1 : snarfItem pack env = ([Event.infoMsg "Please open a folder first."], none) := by
    simp [snarfItem, hw]
  rw [h1]
  exact ⟨rfl, rfl, rfl, rfl⟩

/-! Concrete fixtures and witnesses instantiating the theorems above. -/

/-- A concrete locale comparator: the lexicographic byte order of String,
rendered as a JS style sign value. -/
def cmpW : String → String → Int := fun a b =>
  if a < b then -1 else if b < a then 1 else 0

theorem cmpW_nonpos_iff {s t : String} : cmpW s t ≤ 0 ↔ s ≤ t := by
  unfold cmpW
  rcases lt_trichotomy s t with h | h | h
  · rw [if_pos h]
    constructor
    · intro _; exact le_of_lt h
    · intro _; norm_num
  · subst h
    simp [lt_irrefl]
  · have h1 : ¬s < t := not_lt_of_gt h
    rw [if_neg h1, if_pos h]
    constructor
    · intro hc; exact absurd hc (by norm_num)
    · intro hc; exact absurd hc (not_le.mpr h)

theorem cmpW_total : ∀ s t : String, cmpW s t ≤ 0 ∨ cmpW t s ≤ 0 := by
  intro s t
  rw [cmpW_nonpos_iff, cmpW_nonpos_iff]
  exact le_total s t

theorem cmpW_trans : ∀ s t u : String, cmpW s t ≤ 0 → cmpW t u ≤ 0 → cmpW s u ≤ 0 := by
  intro s t u
  rw [cmpW_nonpos_iff, cmpW_nonpos_iff, cmpW_nonpos_iff]
  exact le_trans

/-- Concrete package records of the example manifests. -/
def pW1 : SnarfSitePackageItem := ⟨"Labs", "banana", "1.0", "d1", "http://x/banana.zip"⟩

def pW2 : SnarfSitePackageItem := ⟨"Labs", "Cherry", "2.0", "d2", "http://x/cherry.zip"⟩

def pW3 : SnarfSitePackageItem := ⟨"Homework", "apple", "3.0", "d3", "http://x/apple.zip"⟩

/-- Concrete configured URL list of length two. -/
def urlsW : List String := ["u1", "u2"]

/-- A fetch oracle on which every request succeeds with a three package
manifest spanning two categories and mixed case names. -/
def fetchW : String → FetchResult := fun _ => ⟨true, ⟨"SiteA", .list [pW2, pW1, pW3]⟩⟩

/-- The node list a successful fetchData run carries. -/
def okNodes (r : Except JsError (Option (List AsyncItem))) : List AsyncItem :=
  match r with
  | .ok (some l) => l
  | _ => []

/-- The site nodes the example load produces. -/
def nodesW : List AsyncItem := okNodes (fetchData (some urlsW) fetchW cmpW).2

/-- Witness for C3 at the example configuration: the load succeeds and the
theorem conclusions hold there. -/
theorem claim_C3_witness :
    (fetchData (some urlsW) fetchW cmpW).2 = .ok (some nodesW) ∧
    (nodesW.length = urlsW.length ∧
      ∀ i u n, urlsW.get? i = some u → nodesW.get? i = some n →
        ∃ site, fetchSite fetchW u = .ok site ∧ buildSiteNode cmpW site = .ok n ∧
          n.label = site.label) :=
  ⟨rfl, claim_C3_sites_in_configured_order rfl⟩

/-- A fetch oracle failing exactly on the URL u2. -/
def fetchBadW : String → FetchResult := fun u =>
  if u = "u2" then ⟨false, ⟨"", .missing⟩⟩ else ⟨true, ⟨"SiteA", .list [pW1]⟩⟩

/-- Witness for C4: two URLs, the second responds non-ok, and the load
fails with the descriptive message naming an offending URL. -/
theorem claim_C4_witness :
    2 ≤ urlsW.length ∧ (∃ u ∈ urlsW, (fetchBadW u).ok = false) ∧
    ∃ u ∈ urlsW, (fetchBadW u).ok = false ∧
      (fetchData (some urlsW) fetchBadW cmpW).2 = .error (.error (failMsg u)) :=
  ⟨by decide, by decide, claim_C4_one_bad_fetch_fails_all (by decide) (by decide)⟩

/-- Oracle serving a manifest with a single package record. -/
def fSingleW : String → FetchResult := fun _ => ⟨true, ⟨"SiteA", .single pW1⟩⟩

/-- Oracle serving the same manifest with a one element package list. -/
def fListW : String → FetchResult := fun _ => ⟨true, ⟨"SiteA", .list [pW1]⟩⟩

/-- Witness for C5 at the concrete one package manifests. -/
theorem claim_C5_witness :
    fSingleW "u1" = ⟨true, ⟨"SiteA", .single pW1⟩⟩ ∧
    fListW "u1" = ⟨true, ⟨"SiteA", .list [pW1]⟩⟩ ∧
    fetchData (some ["u1"]) fSingleW cmpW = fetchData (some ["u1"]) fListW cmpW :=
  ⟨rfl, rfl, claim_C5_single_package_normalization cmpW rfl rfl⟩

/-- Witness for C6 at the example load (two categories, mixed case names:
with the byte order comparator the label Cherry sorts before banana). -/
theorem claim_C6_witness :
    (∀ s t : String, cmpW s t ≤ 0 ∨ cmpW t s ≤ 0) ∧
    (∀ s t u : String, cmpW s t ≤ 0 → cmpW t u ≤ 0 → cmpW s u ≤ 0) ∧
    (fetchData (some urlsW) fetchW cmpW).2 = .ok (some nodesW) ∧
    (∀ s ∈ nodesW, ∀ cs, s.children = some cs → ∀ c ∈ cs, ∀ ps, c.children = some ps →
      (∀ p ∈ ps, ∃ r, p.item = some r ∧ r.category = c.label) ∧
      List.Pairwise (leLabel cmpW) ps) :=
  ⟨cmpW_total, cmpW_trans, rfl,
    @claim_C6_grouping_and_sorting urlsW fetchW cmpW nodesW cmpW_total cmpW_trans rfl⟩

/-- Witness for C9 at the undefined configuration. -/
theorem claim_C9_witness :
    ((none : Option (List String)) = none ∨ (none : Option (List String)) = some []) ∧
    ((fetchData none fetchW cmpW).1 = [] ∧
      ((fetchData none fetchW cmpW).2 = .ok none ∨
        (fetchData none fetchW cmpW).2 = .ok (some []))) :=
  ⟨Or.inl rfl, claim_C9_absent_or_empty_config fetchW cmpW (Or.inl rfl)⟩

/-- Oracle serving a manifest without any package element. -/
def fetchMissW : String → FetchResult := fun _ => ⟨true, ⟨"SiteA", .missing⟩⟩

/-- Witness for C10 at the packageless manifest. -/
theorem claim_C10_witness :
    "u1" ∈ ["u1"] ∧ (∀ u ∈ ["u1"], (fetchMissW u).ok = true) ∧
    fetchMissW "u1" = ⟨true, ⟨"SiteA", .missing⟩⟩ ∧
    (normalizePackages .missing = [none] ∧
      makeItem none =
        .error (.typeError "Cannot read properties of undefined (reading @_name)") ∧
      ∃ e, (fetchData (some ["u1"]) fetchMissW cmpW).2 = .error e) :=
  ⟨by decide, by decide, rfl,
    @claim_C10_missing_package_faults_load ["u1"] fetchMissW cmpW "u1" "SiteA"
      (by decide) (by decide) rfl⟩

/-- Witness for the amended C2 at the concrete environment with an existing
destination and the answer No. -/
theorem claim_C2_amended_witness :
    envPromptW.workspaceFolders = some ("/ws" :: []) ∧
    envPromptW.fetchResult = .ok () ∧ envPromptW.bufferResult = .ok () ∧
    envPromptW.openResult = .ok () ∧ envPromptW.destExists = true ∧
    (Event.promptMsg "Directory already exists. Overwrite?" ∈ (snarfItem packW envPromptW).1 ∧
      (snarfItem packW envPromptW).1.findIdx Event.isFetchReq <
        (snarfItem packW envPromptW).1.findIdx Event.isPrompt ∧
      (envPromptW.answer ≠ some "Yes" →
        (snarfItem packW envPromptW).1.all (fun e => !e.isFsWrite) = true)) :=
  ⟨rfl, rfl, rfl, rfl, rfl,
    claim_C2_amended_download_precedes_prompt rfl rfl rfl rfl rfl⟩

/-- Witness for C7 at the same concrete environment. -/
theorem claim_C7_witness :
    envPromptW.workspaceFolders = some ("/ws" :: []) ∧
    envPromptW.fetchResult = .ok () ∧ envPromptW.bufferResult = .ok () ∧
    envPromptW.openResult = .ok () ∧ envPromptW.destExists = true ∧
    envPromptW.answer ≠ some "Yes" ∧
    ((snarfItem packW envPromptW).1.all (fun e => !(e.isFsWrite || e.isInfoMsg)) = true ∧
      (snarfItem packW envPromptW).2 = none) :=
  ⟨rfl, rfl, rfl, rfl, rfl, by decide,
    claim_C7_nonaffirmative_silent_abort rfl rfl rfl rfl rfl (by decide)⟩

/-- Concrete environment with no workspace open. -/
def envNoWsW : InstallEnv := ⟨none, .ok (), .ok (), .ok (), false, none, .ok ()⟩

/-- Witness for C8 at the environment without a workspace. -/
theorem claim_C8_witness :
    envNoWsW.workspaceFolders = none ∧
    ((snarfItem packW envNoWsW).1 = [Event.infoMsg "Please open a folder first."] ∧
      (snarfItem packW envNoWsW).1.countP Event.isInfoMsg = 1 ∧
      (snarfItem packW envNoWsW).1.all (fun e => !(e.isFetchReq || e.isFsWrite)) = true ∧
      (snarfItem packW envNoWsW).2 = none) :=
  ⟨rfl, claim_C8_no_workspace_guided_noop packW rfl⟩
